import Mathlib

/-!
Shallow embedding of the currency-converter front-end (`src/script.js`).

Conventions of the embedding:
* JS numbers are modelled as exact rationals (`Rat`); the floating-point
  identities claimed "within tolerance" hold exactly in this model.
* A JS object used as a rate table is an association list from currency
  code to rate; JS truthiness of `obj[k]` (present and nonzero) is
  `truthyRate`.
* The host primitives (`fetch`, `JSON.parse`, `new Date`) are external to
  the repository; their outcomes are passed in as explicit data
  (`FetchResult`, `ParsedBlob`, `STimestamp`) and the code's handling of
  each outcome is translated faithfully from the source.
* A JS `Date` is internally an integer count of milliseconds, or the
  Invalid Date value (`JsDate`).
-/

/-- A currency code, e.g. `"USD"` (JS string). -/
abbrev Currency := String

/-- `exchangeRates` / `data.rates`: a JS object mapping currency code to a
rate number, modelled as an association list (first binding wins). -/
abbrev RateTable := List (Currency × Rat)

/-- Property lookup `table[c]`: `some v` when the key is present,
`none` when the property is `undefined`. -/
def lookupRate (t : RateTable) (c : Currency) : Option Rat :=
  match t with
  | [] => none
  | (k, v) :: rest => if k = c then some v else lookupRate rest c

/-- JS truthiness of `table[c]`: the property exists and its value is not
`0` (the only falsy rational; rationals have no NaN). -/
def truthyRate (t : RateTable) (c : Currency) : Bool :=
  match lookupRate t c with
  | some v => v != 0
  | none => false

/-- The keys of a rate-table object, `Object.keys(table)` (insertion
order; the tables built by the code have distinct keys). -/
def objectKeys (t : RateTable) : List Currency :=
  t.map Prod.fst

/-- The `CURRENCY_INFO` allow-list: the 16 supported currency codes
(`script.js` lines 52–69). -/
def CURRENCY_INFO_codes : List Currency :=
  ["USD", "EUR", "GBP", "JPY", "IDR", "CNY", "KRW", "SGD",
   "MYR", "THB", "AUD", "CAD", "CHF", "INR", "HKD", "NZD"]

/-- The observable shape of a provider HTTP response after
`response.json()`: the `ok` flag, the status code, and the `rates` field
(`none` when `data.rates` is missing or not an object). -/
structure HttpResponse where
  ok : Bool
  status : Nat
  rates : Option RateTable
  deriving DecidableEq

/-- Outcome of one `fetchWithTimeout` call: either the promise rejected
(timeout abort or transport failure, carrying the JS error message) or a
response arrived. -/
inductive FetchResult
  | thrown (msg : String)
  | response (r : HttpResponse)
  deriving DecidableEq

/-- The network environment: for each base currency `b`, the outcome of
fetching `API_CONFIG.baseURL + b`. -/
abbrev Fetcher := Currency → FetchResult

/-- The body of the `try` block of `getExchangeRate` (`script.js` lines
168–197), before the `catch` handler: the result (value or the specific
thrown error message) paired with the number of network fetches
performed. -/
def getExchangeRateInner (fromCurrency toCurrency : Currency)
    (exchangeRates : RateTable) (fetcher : Fetcher) : Except String Rat × Nat :=
  if fromCurrency = toCurrency then (Except.ok 1, 0)
  else if truthyRate exchangeRates fromCurrency && truthyRate exchangeRates toCurrency then
    (Except.ok ((lookupRate exchangeRates toCurrency).getD 0 /
      (lookupRate exchangeRates fromCurrency).getD 0), 0)
  else
    match fetcher fromCurrency with
    | FetchResult.thrown msg => (Except.error msg, 1)
    | FetchResult.response r =>
      if r.ok = false then
        (Except.error ("HTTP error! status: " ++ toString r.status), 1)
      else
        match r.rates with
        | none =>
          (Except.error ("Exchange rate not available for " ++ toCurrency), 1)
        | some table =>
          if truthyRate table toCurrency then
            (Except.ok ((lookupRate table toCurrency).getD 0), 1)
          else
            (Except.error ("Exchange rate not available for " ++ toCurrency), 1)

/-- `getExchangeRate` (`script.js` lines 167–208): the `catch` handler
logs the specific error and rethrows the generic message
`"Gagal mendapatkan nilai tukar mata uang"`. Returns the result, the
number of network fetches, and the cache after the call (the function
never assigns `exchangeRates`). -/
def getExchangeRate (fromCurrency toCurrency : Currency)
    (exchangeRates : RateTable) (fetcher : Fetcher) :
    Except String Rat × Nat × RateTable :=
  match getExchangeRateInner fromCurrency toCurrency exchangeRates fetcher with
  | (Except.ok rate, n) => (Except.ok rate, n, exchangeRates)
  | (Except.error _, n) => (Except.error "Gagal mendapatkan nilai tukar mata uang", n, exchangeRates)

/-- The user-visible outcome of `performConversion`: a silent return
(`hideResult`), a validation error message (`showError` before any
network activity), a successful conversion, or a conversion error shown
via `showError` in the `catch` handler. -/
inductive ConvOutcome
  | noOp
  | validationError (msg : String)
  | success (convertedAmount rate : Rat)
  | conversionError (msg : String)
  deriving DecidableEq

/-- `true` exactly for the `validationError` outcome. -/
def ConvOutcome.isValidationError : ConvOutcome → Bool
  | ConvOutcome.validationError _ => true
  | _ => false

/-- `performConversion` (`script.js` lines 278–339). `fromAmount` is
`parseFloat(elements.fromAmount.value)` with `none` standing for NaN;
`!fromAmount` is falsy for NaN and `0`. Returns the outcome and the
number of network fetches performed. -/
def performConversion (fromAmount : Option Rat) (fromCurrency toCurrency : Currency)
    (exchangeRates : RateTable) (fetcher : Fetcher) : ConvOutcome × Nat :=
  match fromAmount with
  | none => (ConvOutcome.noOp, 0)
  | some a =>
    if a = 0 ∨ fromCurrency = "" ∨ toCurrency = "" then (ConvOutcome.noOp, 0)
    else if a ≤ 0 then (ConvOutcome.validationError "Jumlah harus lebih besar dari 0", 0)
    else if a > 1000000000 then
      (ConvOutcome.validationError "Jumlah terlalu besar. Maksimal 1 miliar", 0)
    else
      match getExchangeRate fromCurrency toCurrency exchangeRates fetcher with
      | (Except.ok rate, n, _) => (ConvOutcome.success (a * rate) rate, n)
      | (Except.error msg, n, _) => (ConvOutcome.conversionError msg, n)

/-- Lexicographic order on code-unit sequences, as used by the default
`Array.prototype.sort()` comparator. -/
def charListLe : List Char → List Char → Bool
  | [], _ => true
  | _ :: _, [] => false
  | a :: as, b :: bs =>
    if a.val < b.val then true
    else if b.val < a.val then false
    else charListLe as bs

/-- String comparison of the default JS sort comparator (lexicographic
on code units). -/
def strLe (s t : String) : Bool :=
  charListLe s.data t.data

/-- Insertion of one string into a `strLe`-sorted list of strings. -/
def insertString (s : String) : List String → List String
  | [] => [s]
  | x :: xs => if strLe s x then s :: x :: xs else x :: insertString s xs

/-- `Array.prototype.sort()` with the default comparator on the key
list, modelled as insertion sort by `strLe` (stable; the key lists here
are duplicate-free, so any correct sort agrees). -/
def sortStrings : List String → List String
  | [] => []
  | x :: xs => insertString x (sortStrings xs)

/-- `loadCurrencies` (`script.js` lines 113–159): fetch the USD-based
table, validate the response, take `data.rates` as the new
`exchangeRates`, sort the keys into `currencies`, add USD with rate 1 if
absent, and filter `currencies` by the `CURRENCY_INFO` allow-list. Any
failure is caught and rethrown as the generic message. Returns the new
`(exchangeRates, currencies)` pair on success. -/
def loadCurrencies (fetcher : Fetcher) :
    Except String (RateTable × List Currency) :=
  match fetcher "USD" with
  | FetchResult.thrown _ => Except.error "Gagal memuat data mata uang dari server"
  | FetchResult.response r =>
    if r.ok = false then Except.error "Gagal memuat data mata uang dari server"
    else
      match r.rates with
      | none => Except.error "Gagal memuat data mata uang dari server"
      | some rates =>
        let currencies := sortStrings (objectKeys rates)
        let pair :=
          if currencies.contains "USD" then (rates, currencies)
          else (rates ++ [("USD", (1 : Rat))], "USD" :: currencies)
        Except.ok (pair.1, pair.2.filter (fun c => CURRENCY_INFO_codes.contains c))

/-- A JS `Date` value: a count of milliseconds since the epoch, or the
Invalid Date value. -/
inductive JsDate
  | valid (ms : Int)
  | invalid
  deriving DecidableEq

/-- One side of a conversion record: `{ amount, currency }`. -/
structure AmountCurrency where
  amount : Rat
  currency : Currency
  deriving DecidableEq

/-- An in-memory history entry: as built by `performConversion`
(`script.js` lines 321–326) it is `{ from, to, rate, timestamp }` with
every field present, but entries revived from a malformed persisted blob
may lack the `rate` property (`none`; covering also a non-numeric value,
which `formatNumber` renders identically as `"0"` via its `isNaN`
guard). The `from`/`to` fields are spelled `from_`/`to_` (Lean
keywords); an entry whose `from` or `to` property is missing makes the
history renderer throw and never survives a load (see
`ParsedBlob.arrayWithThrowingItem`), so those fields stay total here. -/
structure ConversionRecord where
  from_ : AmountCurrency
  to_ : AmountCurrency
  rate : Option Rat
  timestamp : JsDate
  deriving DecidableEq

/-- The serialized form of a timestamp inside the persisted JSON blob:
`Date.prototype.toJSON` yields an ISO-8601 string at millisecond
precision for a valid date (carrying its millisecond value) and JSON
`null` for an Invalid Date; any other string that `new Date` cannot
parse is `unparseable`. -/
inductive STimestamp
  | isoString (ms : Int)
  | jsonNull
  | unparseable (s : String)
  deriving DecidableEq

/-- `JSON.stringify` on a `Date`: ISO string for a valid date, `null`
for an invalid one. -/
def dateToJSON : JsDate → STimestamp
  | JsDate.valid ms => STimestamp.isoString ms
  | JsDate.invalid => STimestamp.jsonNull

/-- `new Date(x)` on a revived timestamp field: an ISO string parses
back to the same millisecond instant, `null` coerces to the epoch, and
an unparseable string yields Invalid Date (no exception). -/
def jsNewDate : STimestamp → JsDate
  | STimestamp.isoString ms => JsDate.valid ms
  | STimestamp.jsonNull => JsDate.valid 0
  | STimestamp.unparseable _ => JsDate.invalid

/-- One element of the persisted JSON array whose `from` and `to`
properties are present: `rate` and `timestamp` may be absent (`none`;
for `rate` this also stands for a non-numeric value, rendered
identically). JSON numbers and strings round-trip exactly. Items whose
`from` or `to` property is missing are a separate case
(`ParsedBlob.arrayWithThrowingItem`), since reading `.amount` off them
throws during rendering. -/
structure PersistedRecord where
  from_ : AmountCurrency
  to_ : AmountCurrency
  rate : Option Rat
  timestamp : Option STimestamp
  deriving DecidableEq

/-- Serialization of one record inside
`JSON.stringify(conversionHistory)`: a valid `Date` serializes to its
ISO string, an invalid one to JSON `null`; an absent `rate` property is
simply omitted and parses back as absent. -/
def serializeRecord (r : ConversionRecord) : PersistedRecord :=
  { from_ := r.from_, to_ := r.to_, rate := r.rate,
    timestamp := some (dateToJSON r.timestamp) }

/-- `saveHistoryToStorage` (`script.js` lines 537–545): the blob written
to `window.conversionHistoryData` is the JSON array of the serialized
records, in order. -/
def saveHistoryToStorage (conversionHistory : List ConversionRecord) :
    List PersistedRecord :=
  conversionHistory.map serializeRecord

/-- `new Date(item.timestamp)` on a revived item: an absent property
(`new Date(undefined)`) yields Invalid Date. -/
def reviveTimestamp : Option STimestamp → JsDate
  | some ts => jsNewDate ts
  | none => JsDate.invalid

/-- `(item) => ({...item, timestamp: new Date(item.timestamp)})`: spread
the persisted fields and reparse the timestamp. -/
def reviveRecord (p : PersistedRecord) : ConversionRecord :=
  { from_ := p.from_, to_ := p.to_, rate := p.rate,
    timestamp := reviveTimestamp p.timestamp }

/-- What `JSON.parse` makes of the stored blob string: a parse exception
(`notJson`); a JSON value with no `.map` method so the subsequent map
throws (`notArray`); a valid array containing some item whose `from` or
`to` property is missing, so `updateHistoryDisplay` throws a `TypeError`
reading `.amount` off `undefined` — every such array loads to the empty
log, so the constructor carries no payload (`arrayWithThrowingItem`); or
an array of items whose `from`/`to` are present (`array`). -/
inductive ParsedBlob
  | notJson
  | notArray
  | arrayWithThrowingItem
  | array (items : List PersistedRecord)
  deriving DecidableEq

/-- Whether rendering one history entry in `updateHistoryDisplay`
(`script.js` lines 444–481) throws: the revived timestamp is always a
`Date` instance, so `formatDateTime` reaches
`Intl.DateTimeFormat(...).format`, which throws a `RangeError` on an
Invalid Date; `formatNumber` and `formatCurrency` guard with `isNaN`
and render an absent or non-numeric amount/rate as `"0"` without
throwing. -/
def renderThrows (r : ConversionRecord) : Bool :=
  match r.timestamp with
  | JsDate.invalid => true
  | JsDate.valid _ => false

/-- `loadHistoryFromStorage` (`script.js` lines 550–566).
`slot` is `window.conversionHistoryData`: `none` when the variable is
unset (the `if (savedHistory)` guard fails and `conversionHistory` keeps
its current value), otherwise the parse outcome of the stored string.
`updateHistoryDisplay()` runs INSIDE the `try` (line 561), so a render
throw is also caught; any exception caught resets `conversionHistory`
to `[]`. -/
def loadHistoryFromStorage (slot : Option ParsedBlob)
    (conversionHistory : List ConversionRecord) : List ConversionRecord :=
  match slot with
  | none =>
    if conversionHistory.any renderThrows then [] else conversionHistory
  | some ParsedBlob.notJson => []
  | some ParsedBlob.notArray => []
  | some ParsedBlob.arrayWithThrowingItem => []
  | some (ParsedBlob.array items) =>
    let loaded := items.map reviveRecord
    if loaded.any renderThrows then [] else loaded

/-- `addToHistory` (`script.js` lines 422–439): `unshift` the new record
and truncate with `slice(0, 50)` when the length exceeds 50. -/
def addToHistory (conversionHistory : List ConversionRecord)
    (conversion : ConversionRecord) : List ConversionRecord :=
  let h := conversion :: conversionHistory
  if h.length > 50 then h.take 50 else h

/-- A family of pairwise-distinct conversion records (distinguished by
their timestamps), used to exercise `addToHistory` on a concrete
sequence of 60 appends. -/
def demoRecord (i : Nat) : ConversionRecord :=
  { from_ := ⟨1, "USD"⟩, to_ := ⟨15000, "IDR"⟩, rate := some 15000,
    timestamp := JsDate.valid i }

/-! ## Helper lemmas -/

theorem length_addToHistory (h : List ConversionRecord) (c : ConversionRecord) :
    (addToHistory h c).length ≤ 50 := by
  unfold addToHistory
  dsimp only
  split
  · simp [List.length_take]
  · next hcond => simp only [List.length_cons] at hcond ⊢; omega

theorem foldl_addToHistory (rs : List ConversionRecord) :
    List.foldl addToHistory [] rs = rs.reverse.take 50 := by
  induction rs using List.reverseRecOn with
  | nil => rfl
  | append_singleton l a ih =>
    rw [List.foldl_append, ih, List.reverse_append]
    simp only [List.reverse_cons, List.reverse_nil, List.nil_append, List.singleton_append,
      List.foldl_cons, List.foldl_nil]
    have key : addToHistory (l.reverse.take 50) a
        = if (a :: l.reverse.take 50).length > 50 then (a :: l.reverse.take 50).take 50
          else a :: l.reverse.take 50 := rfl
    rw [key]
    by_cases hl : l.length ≤ 49
    · have h1 : l.reverse.take 50 = l.reverse :=
        List.take_of_length_le (by simp; omega)
      rw [h1, if_neg (by simp; omega),
        List.take_of_length_le (by simp; omega)]
    · have h50 : (l.reverse.take 50).length = 50 := by simp; omega
      rw [if_pos (by simp only [List.length_cons, h50]; omega)]
      rw [show (50 : Nat) = 49 + 1 from rfl, List.take_succ_cons, List.take_succ_cons,
        List.take_take]
      norm_num

theorem reviveRecord_serializeRecord (r : ConversionRecord)
    (h : r.timestamp ≠ JsDate.invalid) :
    reviveRecord (serializeRecord r) = r := by
  cases r with
  | mk f t rate ts =>
    cases ts with
    | valid ms => rfl
    | invalid => exact absurd rfl h

theorem mem_insertString (a s : String) (l : List String) :
    a ∈ insertString s l ↔ a = s ∨ a ∈ l := by
  induction l with
  | nil => simp [insertString]
  | cons x xs ih =>
    unfold insertString
    by_cases h : strLe s x = true
    · simp [h]
    · simp [h, ih]
      tauto

theorem mem_sortStrings (a : String) (l : List String) :
    a ∈ sortStrings l ↔ a ∈ l := by
  induction l with
  | nil => simp [sortStrings]
  | cons x xs ih => simp [sortStrings, mem_insertString, ih]

theorem lookupRate_none_iff (t : RateTable) (c : Currency) :
    lookupRate t c = none ↔ c ∉ objectKeys t := by
  induction t with
  | nil => simp [lookupRate, objectKeys]
  | cons p rest ih =>
    rw [show objectKeys (p :: rest) = p.1 :: objectKeys rest from rfl]
    unfold lookupRate
    by_cases h : p.1 = c
    · simp [h]
    · have h' : ¬(c = p.1) := fun e => h e.symm
      rw [if_neg h, ih]
      simp [List.mem_cons, h']

theorem lookupRate_append_of_none (t t' : RateTable) (c : Currency)
    (h : lookupRate t c = none) :
    lookupRate (t ++ t') c = lookupRate t' c := by
  induction t with
  | nil => rfl
  | cons p rest ih =>
    cases p with
    | mk k v =>
      rw [List.cons_append]
      show (if k = c then some v else lookupRate (rest ++ t') c) = lookupRate t' c
      unfold lookupRate at h
      by_cases hk : k = c
      · rw [if_pos hk] at h
        exact absurd h (by simp)
      · rw [if_neg hk] at h
        rw [if_neg hk]
        exact ih h

/-! ## Claims -/

/-- Claim C1: for every amount valid under the input rules and every
pair of distinct supported currency codes `X`, `Y` whose (positive)
rates are both present in the cached table, `performConversion` returns
`a * cache[Y] / cache[X]` with effective rate `cache[Y] / cache[X]` and
performs no network fetch. In this exact-rational model the identity
holds exactly, which in particular is within floating-point tolerance. -/
theorem performConversion_cached_cross_rate (a rX rY : Rat) (X Y : Currency)
    (cache : RateTable) (fetcher : Fetcher)
    (h0 : 0 < a) (h1 : a ≤ 1000000000) (hne : X ≠ Y)
    (hXs : X ∈ CURRENCY_INFO_codes) (hYs : Y ∈ CURRENCY_INFO_codes)
    (hlX : lookupRate cache X = some rX) (hlY : lookupRate cache Y = some rY)
    (hrX : 0 < rX) (hrY : 0 < rY) :
    performConversion (some a) X Y cache fetcher
      = (ConvOutcome.success (a * (rY / rX)) (rY / rX), 0) := by
  have hX : X ≠ "" := by rintro rfl; exact absurd hXs (by decide)
  have hY : Y ≠ "" := by rintro rfl; exact absurd hYs (by decide)
  simp [performConversion, getExchangeRate, getExchangeRateInner, h0.ne', hX, hY,
    not_le.mpr h0, not_lt.mpr h1, hne, truthyRate, hlX, hlY, hrX.ne', hrY.ne']

/-- Witness for C1: converting 2 USD to IDR with both rates cached
(USD at 1, IDR at 15000) yields 30000 at rate 15000 with zero fetches. -/
theorem performConversion_cached_cross_rate_witness :
    performConversion (some 2) "USD" "IDR" [("USD", 1), ("IDR", 15000)]
        (fun _ => FetchResult.thrown "network down")
      = (ConvOutcome.success 30000 15000, 0) := by
  have h := performConversion_cached_cross_rate 2 1 15000 "USD" "IDR"
    [("USD", 1), ("IDR", 15000)] (fun _ => FetchResult.thrown "network down")
    (by norm_num) (by norm_num) (by decide) (by decide) (by decide)
    rfl rfl (by norm_num) (by norm_num)
  rw [h]
  norm_num

/-- Claim C2: for every supported currency code `X` and valid amount
`a`, converting from `X` to `X` returns the amount unchanged with rate
exactly 1 and does not invoke the fetcher. -/
theorem performConversion_same_currency (a : Rat) (X : Currency) (cache : RateTable)
    (fetcher : Fetcher) (hmem : X ∈ CURRENCY_INFO_codes)
    (h0 : 0 < a) (h1 : a ≤ 1000000000) :
    performConversion (some a) X X cache fetcher = (ConvOutcome.success a 1, 0) := by
  have hX : X ≠ "" := by rintro rfl; exact absurd hmem (by decide)
  simp [performConversion, getExchangeRate, getExchangeRateInner, h0.ne', hX,
    not_le.mpr h0, not_lt.mpr h1]

/-- Witness for C2: converting 7 EUR to EUR with an empty cache and an
unreachable network yields 7 at rate 1 with zero fetches. -/
theorem performConversion_same_currency_witness :
    performConversion (some 7) "EUR" "EUR" [] (fun _ => FetchResult.thrown "network down")
      = (ConvOutcome.success 7 1, 0) :=
  performConversion_same_currency 7 "EUR" [] (fun _ => FetchResult.thrown "network down")
    (by decide) (by norm_num) (by norm_num)

/-- Counterexample to C3 as stated: with amount 0 the code takes the
initial falsy-input check (`!fromAmount` is true for 0), silently hides
the result and returns; it does not produce a `ValidationError`. -/
theorem performConversion_zero_amount_noOp :
    performConversion (some 0) "USD" "IDR" [("USD", 1), ("IDR", 15000)]
        (fun _ => FetchResult.thrown "network down")
      = (ConvOutcome.noOp, 0) ∧
    ConvOutcome.noOp.isValidationError = false :=
  ⟨by decide, rfl⟩

/-- Claim C3 (amended): `convert(0, X, Y)` is a silent no-op with no
error display and no network call; `convert(-5, X, Y)` and
`convert(1000000001, X, Y)` fail with a validation error and no network
call; `convert(1000000000, X, Y)` succeeds (given cached positive rates
for `X` and `Y`). -/
theorem performConversion_validation_boundary (X Y : Currency) (cache : RateTable)
    (fetcher : Fetcher) (rX rY : Rat)
    (hXs : X ∈ CURRENCY_INFO_codes) (hYs : Y ∈ CURRENCY_INFO_codes)
    (hlX : lookupRate cache X = some rX) (hlY : lookupRate cache Y = some rY)
    (hrX : 0 < rX) (hrY : 0 < rY) :
    performConversion (some 0) X Y cache fetcher = (ConvOutcome.noOp, 0) ∧
    performConversion (some (-5)) X Y cache fetcher
      = (ConvOutcome.validationError "Jumlah harus lebih besar dari 0", 0) ∧
    performConversion (some 1000000001) X Y cache fetcher
      = (ConvOutcome.validationError "Jumlah terlalu besar. Maksimal 1 miliar", 0) ∧
    (∃ c r : Rat, performConversion (some 1000000000) X Y cache fetcher
      = (ConvOutcome.success c r, 0)) := by
  have hX : X ≠ "" := by rintro rfl; exact absurd hXs (by decide)
  have hY : Y ≠ "" := by rintro rfl; exact absurd hYs (by decide)
  refine ⟨by simp [performConversion], ?_, ?_, ?_⟩
  · norm_num [performConversion, hX, hY]
  · norm_num [performConversion, hX, hY]
  · by_cases hXY : X = Y
    · subst hXY
      exact ⟨1000000000, 1, by
        norm_num [performConversion, getExchangeRate, getExchangeRateInner, hX]⟩
    · exact ⟨1000000000 * (rY / rX), rY / rX, by
        norm_num [performConversion, getExchangeRate, getExchangeRateInner, hX, hY, hXY,
          truthyRate, hlX, hlY, hrX.ne', hrY.ne']⟩

/-- Witness for C3 (amended), at USD→IDR with cached rates 1 and
15000. -/
theorem performConversion_validation_boundary_witness :
    performConversion (some 0) "USD" "IDR" [("USD", 1), ("IDR", 15000)]
        (fun _ => FetchResult.thrown "network down") = (ConvOutcome.noOp, 0) ∧
    performConversion (some (-5)) "USD" "IDR" [("USD", 1), ("IDR", 15000)]
        (fun _ => FetchResult.thrown "network down")
      = (ConvOutcome.validationError "Jumlah harus lebih besar dari 0", 0) ∧
    performConversion (some 1000000001) "USD" "IDR" [("USD", 1), ("IDR", 15000)]
        (fun _ => FetchResult.thrown "network down")
      = (ConvOutcome.validationError "Jumlah terlalu besar. Maksimal 1 miliar", 0) ∧
    (∃ c r : Rat, performConversion (some 1000000000) "USD" "IDR"
        [("USD", 1), ("IDR", 15000)] (fun _ => FetchResult.thrown "network down")
      = (ConvOutcome.success c r, 0)) :=
  performConversion_validation_boundary "USD" "IDR" [("USD", 1), ("IDR", 15000)]
    (fun _ => FetchResult.thrown "network down") 1 15000
    (by decide) (by decide) rfl rfl (by norm_num) (by norm_num)

set_option maxRecDepth 4000 in
/-- Claim C4: after any append the history length never exceeds 50;
any sequence of appends to an empty log leaves the most recent 50
records newest-first (the fold equals `reverse.take 50`); in particular
appending 60 sequential distinct records leaves exactly the 50 most
recent, newest-first, with the oldest 10 evicted. -/
theorem addToHistory_capacity_newest_first :
    (∀ (h : List ConversionRecord) (c : ConversionRecord),
      (addToHistory h c).length ≤ 50) ∧
    (∀ rs : List ConversionRecord,
      List.foldl addToHistory [] rs = rs.reverse.take 50) ∧
    List.foldl addToHistory [] ((List.range 60).map demoRecord)
      = (((List.range 60).map demoRecord).drop 10).reverse :=
  ⟨length_addToHistory, foldl_addToHistory, rfl⟩

/-- Claim C5: serializing a history log of well-formed records (valid
timestamps) and loading the blob back reproduces an equal ordered
sequence of records; `JsDate` instants carry exactly the millisecond
value that the serialized ISO string preserves, so timestamps agree at
millisecond granularity. -/
theorem history_persistence_round_trip (log : List ConversionRecord)
    (hvalid : ∀ r ∈ log, r.timestamp ≠ JsDate.invalid)
    (current : List ConversionRecord) :
    loadHistoryFromStorage (some (ParsedBlob.array (saveHistoryToStorage log))) current
      = log := by
  have hload : ((saveHistoryToStorage log).map reviveRecord) = log := by
    simp only [saveHistoryToStorage, List.map_map]
    induction log with
    | nil => rfl
    | cons r rest ih =>
      simp only [List.map_cons, Function.comp_apply]
      rw [reviveRecord_serializeRecord r (hvalid r (by simp)),
        ih (fun x hx => hvalid x (by simp [hx]))]
  have hthrow : ((saveHistoryToStorage log).map reviveRecord).any renderThrows = false := by
    rw [hload]
    rw [List.any_eq_false]
    intro r hr
    cases hts : r.timestamp with
    | valid ms => simp [renderThrows, hts]
    | invalid => exact absurd hts (hvalid r hr)
  have hstep : loadHistoryFromStorage
        (some (ParsedBlob.array (saveHistoryToStorage log))) current
      = if ((saveHistoryToStorage log).map reviveRecord).any renderThrows then []
        else (saveHistoryToStorage log).map reviveRecord := rfl
  rw [hstep, hthrow, hload]
  simp

/-- Witness for C5: a one-record log with a valid timestamp
round-trips unchanged. -/
theorem history_persistence_round_trip_witness :
    loadHistoryFromStorage (some (ParsedBlob.array (saveHistoryToStorage
        [{ from_ := ⟨1, "USD"⟩, to_ := ⟨15000, "IDR"⟩, rate := some 15000,
           timestamp := JsDate.valid 1700000000000 }]))) []
      = [{ from_ := ⟨1, "USD"⟩, to_ := ⟨15000, "IDR"⟩, rate := some 15000,
           timestamp := JsDate.valid 1700000000000 }] :=
  history_persistence_round_trip
    [{ from_ := ⟨1, "USD"⟩, to_ := ⟨15000, "IDR"⟩, rate := some 15000,
       timestamp := JsDate.valid 1700000000000 }]
    (by decide) []

/-- Counterexample to C6 as stated: a valid-JSON array whose single
item is malformed — its `rate` property is missing, its timestamp
parseable — loads as a NON-EMPTY one-element junk log: `formatNumber`
renders the absent rate as `"0"` without throwing, so nothing resets
the history. A blob "not of the expected structure" therefore does not
always yield an empty log. -/
theorem loadHistoryFromStorage_junk_blob_nonempty :
    loadHistoryFromStorage (some (ParsedBlob.array
        [{ from_ := ⟨1, "USD"⟩, to_ := ⟨1, "EUR"⟩, rate := none,
           timestamp := some (STimestamp.isoString 1590969600000) }])) []
      = [{ from_ := ⟨1, "USD"⟩, to_ := ⟨1, "EUR"⟩, rate := none,
           timestamp := JsDate.valid 1590969600000 }] ∧
    (loadHistoryFromStorage (some (ParsedBlob.array
        [{ from_ := ⟨1, "USD"⟩, to_ := ⟨1, "EUR"⟩, rate := none,
           timestamp := some (STimestamp.isoString 1590969600000) }])) []).length = 1 ∧
    (1 : Nat) ≠ 0 :=
  ⟨rfl, rfl, by decide⟩

/-- Claim C6 (amended): a blob that is absent, not valid JSON, not an
array, or an array whose items make the history rendering throw inside
the load's `try` (an item missing its `from`/`to` object, or whose
timestamp revives to an Invalid Date) yields an empty history log, and
since the model function is total no error reaches the caller; but a
valid-JSON array of items that render without throwing is loaded as-is,
so a malformed-but-renderable item (e.g. one missing its `rate`) yields
a non-empty junk log. -/
theorem loadHistoryFromStorage_soft_fail :
    (∀ current, loadHistoryFromStorage (some ParsedBlob.notJson) current = []) ∧
    (∀ current, loadHistoryFromStorage (some ParsedBlob.notArray) current = []) ∧
    (∀ current,
      loadHistoryFromStorage (some ParsedBlob.arrayWithThrowingItem) current = []) ∧
    loadHistoryFromStorage none [] = [] ∧
    (∀ (items : List PersistedRecord) (current : List ConversionRecord),
      (items.map reviveRecord).any renderThrows = true →
      loadHistoryFromStorage (some (ParsedBlob.array items)) current = []) ∧
    (∀ (items : List PersistedRecord) (current : List ConversionRecord),
      (items.map reviveRecord).any renderThrows = false →
      loadHistoryFromStorage (some (ParsedBlob.array items)) current
        = items.map reviveRecord) := by
  refine ⟨fun _ => rfl, fun _ => rfl, fun _ => rfl, rfl, ?_, ?_⟩
  · intro items current h
    simp [loadHistoryFromStorage, h]
  · intro items current h
    simp [loadHistoryFromStorage, h]

/-- Witness for C6 (amended): an array holding one record with an
unparseable timestamp renders-throws and loads as the empty log. -/
theorem loadHistoryFromStorage_soft_fail_witness :
    loadHistoryFromStorage (some (ParsedBlob.array
        [{ from_ := ⟨1, "USD"⟩, to_ := ⟨15000, "IDR"⟩, rate := some 15000,
           timestamp := some (STimestamp.unparseable "garbage") }])) [] = [] :=
  loadHistoryFromStorage_soft_fail.2.2.2.2.1
    [{ from_ := ⟨1, "USD"⟩, to_ := ⟨15000, "IDR"⟩, rate := some 15000,
       timestamp := some (STimestamp.unparseable "garbage") }] [] (by decide)

/-- Counterexample to C7 as stated: a blob holding one good record and
one record with an unparseable timestamp loads as the EMPTY log: the
Invalid Date makes `updateHistoryDisplay` throw inside the `try`, the
`catch` resets the whole history, and the good record is NOT still
loaded (C7 predicts a length-1 log holding the good record). -/
theorem loadHistoryFromStorage_unparseable_timestamp_resets :
    loadHistoryFromStorage (some (ParsedBlob.array
        [{ from_ := ⟨1, "USD"⟩, to_ := ⟨15000, "IDR"⟩, rate := some 15000,
           timestamp := some (STimestamp.isoString 1700000000000) },
         { from_ := ⟨2, "USD"⟩, to_ := ⟨30000, "IDR"⟩, rate := some 15000,
           timestamp := some (STimestamp.unparseable "not-a-date") }])) []
      = [] ∧
    reviveTimestamp (some (STimestamp.unparseable "not-a-date")) = JsDate.invalid ∧
    loadHistoryFromStorage (some (ParsedBlob.array
        [{ from_ := ⟨1, "USD"⟩, to_ := ⟨15000, "IDR"⟩, rate := some 15000,
           timestamp := some (STimestamp.isoString 1700000000000) },
         { from_ := ⟨2, "USD"⟩, to_ := ⟨30000, "IDR"⟩, rate := some 15000,
           timestamp := some (STimestamp.unparseable "not-a-date") }])) []
      ≠ [{ from_ := ⟨1, "USD"⟩, to_ := ⟨15000, "IDR"⟩, rate := some 15000,
           timestamp := JsDate.valid 1700000000000 }] :=
  ⟨rfl, rfl, by decide⟩

/-- Claim C7 (amended): a persisted record whose serialized timestamp
fails to parse revives to an Invalid Date; rendering it in
`updateHistoryDisplay`, which runs inside the load's `try` block,
throws a `RangeError`, and the `catch` resets the history — so the
whole load yields the empty log. The offending record is not
individually dropped with the rest retained; no record from the blob
survives. -/
theorem loadHistoryFromStorage_invalid_timestamp_aborts
    (items : List PersistedRecord) (current : List ConversionRecord)
    (p : PersistedRecord) (hp : p ∈ items)
    (hbad : reviveTimestamp p.timestamp = JsDate.invalid) :
    loadHistoryFromStorage (some (ParsedBlob.array items)) current = [] := by
  have h : (items.map reviveRecord).any renderThrows = true := by
    rw [List.any_eq_true]
    exact ⟨reviveRecord p, List.mem_map_of_mem reviveRecord hp,
      by simp [renderThrows, reviveRecord, hbad]⟩
  simp [loadHistoryFromStorage, h]

/-- Witness for C7 (amended): one record with timestamp `"not-a-date"`
loads as the empty log. -/
theorem loadHistoryFromStorage_invalid_timestamp_aborts_witness :
    loadHistoryFromStorage (some (ParsedBlob.array
        [{ from_ := ⟨1, "USD"⟩, to_ := ⟨15000, "IDR"⟩, rate := some 15000,
           timestamp := some (STimestamp.unparseable "not-a-date") }])) [] = [] :=
  loadHistoryFromStorage_invalid_timestamp_aborts
    [{ from_ := ⟨1, "USD"⟩, to_ := ⟨15000, "IDR"⟩, rate := some 15000,
       timestamp := some (STimestamp.unparseable "not-a-date") }] []
    { from_ := ⟨1, "USD"⟩, to_ := ⟨15000, "IDR"⟩, rate := some 15000,
      timestamp := some (STimestamp.unparseable "not-a-date") }
    (by decide) rfl

/-- Claim C8: when the currencies differ and at least one is not
(truthily) cached, the engine consults the fetcher at the source
currency as base, returns the target's entry from the fetched table,
performs exactly one fetch, and returns the cache unchanged (the source
never assigns `exchangeRates` in this branch). -/
theorem getExchangeRate_uncached_fetch (X Y : Currency) (cache : RateTable)
    (fetcher : Fetcher) (s : Nat) (table : RateTable) (rY : Rat)
    (hne : X ≠ Y)
    (hmiss : truthyRate cache X = false ∨ truthyRate cache Y = false)
    (hfetch : fetcher X = FetchResult.response ⟨true, s, some table⟩)
    (hlY : lookupRate table Y = some rY) (hrY : rY ≠ 0) :
    getExchangeRate X Y cache fetcher = (Except.ok rY, 1, cache) := by
  have hcond : (truthyRate cache X && truthyRate cache Y) = false := by
    rcases hmiss with h | h <;> simp [h]
  have htY : truthyRate table Y = true := by simp [truthyRate, hlY, hrY]
  simp only [getExchangeRate, getExchangeRateInner, hcond, hfetch, htY, hlY]
  simp [hne]

/-- Witness for C8: USD→IDR with an empty cache and a fetched table
holding IDR at 15000 returns 15000 with one fetch and an unchanged
(empty) cache. -/
theorem getExchangeRate_uncached_fetch_witness :
    getExchangeRate "USD" "IDR" []
        (fun _ => FetchResult.response ⟨true, 200, some [("IDR", 15000)]⟩)
      = (Except.ok 15000, 1, []) :=
  getExchangeRate_uncached_fetch "USD" "IDR" []
    (fun _ => FetchResult.response ⟨true, 200, some [("IDR", 15000)]⟩)
    200 [("IDR", 15000)] 15000 (by decide) (Or.inl rfl) rfl rfl (by norm_num)

/-- Counterexample to C9 as stated: when a fresh fetch succeeds but the
target is absent from the returned table, the inner code throws the
specific message, but `getExchangeRate`'s catch-all replaces it with
the generic `"Gagal mendapatkan nilai tukar mata uang"` — the specific
message is NOT surfaced verbatim to the caller. -/
theorem getExchangeRate_error_message_not_verbatim :
    getExchangeRateInner "USD" "IDR" []
        (fun _ => FetchResult.response ⟨true, 200, some [("EUR", 2)]⟩)
      = (Except.error "Exchange rate not available for IDR", 1) ∧
    getExchangeRate "USD" "IDR" []
        (fun _ => FetchResult.response ⟨true, 200, some [("EUR", 2)]⟩)
      = (Except.error "Gagal mendapatkan nilai tukar mata uang", 1, []) ∧
    ("Gagal mendapatkan nilai tukar mata uang" : String)
      ≠ "Exchange rate not available for IDR" :=
  ⟨rfl, rfl, by decide⟩

/-- Claim C9 (amended): when a fresh fetch succeeds but the requested
target currency is absent from the returned table, the operation fails:
internally with the specific message
`"Exchange rate not available for <target>"`, which the function's
catch-all then replaces with the generic failure message before it
reaches the caller. -/
theorem getExchangeRate_unsupported_target (X Y : Currency) (cache : RateTable)
    (fetcher : Fetcher) (s : Nat) (table : RateTable)
    (hne : X ≠ Y)
    (hmiss : truthyRate cache X = false ∨ truthyRate cache Y = false)
    (hfetch : fetcher X = FetchResult.response ⟨true, s, some table⟩)
    (habs : lookupRate table Y = none) :
    getExchangeRateInner X Y cache fetcher
      = (Except.error ("Exchange rate not available for " ++ Y), 1) ∧
    getExchangeRate X Y cache fetcher
      = (Except.error "Gagal mendapatkan nilai tukar mata uang", 1, cache) := by
  have hcond : (truthyRate cache X && truthyRate cache Y) = false := by
    rcases hmiss with h | h <;> simp [h]
  have htY : truthyRate table Y = false := by simp [truthyRate, habs]
  constructor
  · simp only [getExchangeRateInner, hcond, hfetch, htY]
    simp [hne]
  · simp only [getExchangeRate, getExchangeRateInner, hcond, hfetch, htY]
    simp [hne]

/-- Witness for C9 (amended): USD→IDR with an empty cache and a fetched
table holding only EUR. -/
theorem getExchangeRate_unsupported_target_witness :
    getExchangeRateInner "USD" "IDR" []
        (fun _ => FetchResult.response ⟨true, 200, some [("EUR", 2)]⟩)
      = (Except.error ("Exchange rate not available for " ++ "IDR"), 1) ∧
    getExchangeRate "USD" "IDR" []
        (fun _ => FetchResult.response ⟨true, 200, some [("EUR", 2)]⟩)
      = (Except.error "Gagal mendapatkan nilai tukar mata uang", 1, []) :=
  getExchangeRate_unsupported_target "USD" "IDR" []
    (fun _ => FetchResult.response ⟨true, 200, some [("EUR", 2)]⟩)
    200 [("EUR", 2)] (by decide) (Or.inl rfl) rfl rfl

/-- Counterexample to C10 as stated: a well-formed provider response
that maps USD to 2 loads successfully and leaves USD mapped to 2, not
1 — the code normalizes USD only when it is absent from the response. -/
theorem loadCurrencies_keeps_provider_usd_rate :
    loadCurrencies
        (fun _ => FetchResult.response ⟨true, 200, some [("USD", 2), ("IDR", 15000)]⟩)
      = Except.ok ([("USD", 2), ("IDR", 15000)], ["IDR", "USD"]) ∧
    lookupRate [("USD", (2 : Rat)), ("IDR", 15000)] "USD" = some 2 ∧
    (2 : Rat) ≠ 1 :=
  ⟨rfl, rfl, by decide⟩

/-- Claim C10 (amended): after a successful load, the rate table maps
USD to exactly 1 whenever the provider response omitted USD (the code
then adds the entry `USD ↦ 1`); when the response includes USD, its
value is kept verbatim, so the base-maps-to-1 invariant holds only if
the provider reported it. -/
theorem loadCurrencies_usd_base (fetcher : Fetcher) (s : Nat) (rates : RateTable)
    (hfetch : fetcher "USD" = FetchResult.response ⟨true, s, some rates⟩) :
    (lookupRate rates "USD" = none →
      loadCurrencies fetcher
        = Except.ok (rates ++ [("USD", 1)],
            (("USD" :: sortStrings (objectKeys rates)).filter
              (fun c => CURRENCY_INFO_codes.contains c))) ∧
      lookupRate (rates ++ [("USD", 1)]) "USD" = some 1) ∧
    (∀ v : Rat, lookupRate rates "USD" = some v →
      loadCurrencies fetcher
        = Except.ok (rates,
            ((sortStrings (objectKeys rates)).filter
              (fun c => CURRENCY_INFO_codes.contains c)))) := by
  constructor
  · intro habs
    have hnm : "USD" ∉ objectKeys rates := (lookupRate_none_iff rates "USD").mp habs
    have hmem : "USD" ∉ sortStrings (objectKeys rates) :=
      fun hx => hnm ((mem_sortStrings _ _).mp hx)
    constructor
    · simp [loadCurrencies, hfetch, hmem]
    · rw [lookupRate_append_of_none rates _ _ habs]
      rfl
  · intro v hv
    have hm : "USD" ∈ objectKeys rates := by
      by_contra hnm
      rw [← lookupRate_none_iff] at hnm
      rw [hv] at hnm
      exact Option.noConfusion hnm
    have hmem : "USD" ∈ sortStrings (objectKeys rates) := (mem_sortStrings _ _).mpr hm
    simp [loadCurrencies, hfetch, hmem]

/-- Witness for C10 (amended): a response without USD (only IDR) loads
to a table in which USD maps to exactly 1. -/
theorem loadCurrencies_usd_base_witness :
    loadCurrencies (fun _ => FetchResult.response ⟨true, 200, some [("IDR", 15000)]⟩)
      = Except.ok ([("IDR", 15000), ("USD", 1)], ["USD", "IDR"]) ∧
    lookupRate [("IDR", (15000 : Rat)), ("USD", 1)] "USD" = some 1 := by
  have h := (loadCurrencies_usd_base
      (fun _ => FetchResult.response ⟨true, 200, some [("IDR", 15000)]⟩)
      200 [("IDR", 15000)] rfl).1 rfl
  exact ⟨h.1.trans (by rfl), h.2⟩
